import Mathlib

/-!
Verification of the data-preparation utilities of the
Hyperspectral-Imagery-Unmixing repository
(`src/utils/preprocessing.py`, `src/utils/artifacts_reporter.py`).

The Python code is shallowly embedded: numpy arrays become Lean lists,
Python floats become exact rationals (`ℚ`), and every operation that can
raise a Python exception returns `Except PyError`.
-/

/-- The Python exceptions that the embedded code can raise. -/
inductive PyError where
  | assertionError (msg : String)
  | typeError (msg : String)
  | indexError
  | valueError (msg : String)
  | notImplementedError
deriving DecidableEq, Repr

/-- The three runtime types over which `_get_set_indices` dispatches
(`functools.singledispatch` on the first argument): Python `float`
(modelled as `ℚ`), `int` (modelled as `ℤ`) and `list` of numbers. -/
inductive SizeSpec where
  | float (q : ℚ)
  | int (n : ℤ)
  | list (l : List ℤ)
deriving DecidableEq, Repr

/-- Numpy integer fancy indexing `xs[idx]`: raises `IndexError` as soon as
some index is out of bounds, otherwise gathers the selected elements in
index order. (Negative indices never occur in this code base: every index
list is built from `np.arange`.) -/
def np_index {α : Type} [Inhabited α] (xs : List α) (idx : List ℕ) :
    Except PyError (List α) :=
  if idx.all (fun i => decide (i < xs.length)) then
    .ok (idx.map (fun i => xs.getD i default))
  else
    .error .indexError

/-- `np.setdiff1d a b`: the sorted list of unique values of `a` that are
not in `b` (`preprocessing.py`, lines 91-92). -/
def setdiff1d (a b : List ℕ) : List ℕ :=
  List.insertionSort (fun x y => x ≤ y) ((a.filter (fun x => decide (x ∉ b))).dedup)

/-- Modelled from the spec: `get_label_indices_per_class` lives in
`src.utils.utils`, which is not part of the provided sources.  Per the
spec it "groups indices by class label" via "a stable grouping by label
value ... a mapping from label to ordered index list" iterated in sorted
unique label order (the `np.unique` convention), and with
`return_uniques=True` it also returns the unique labels. -/
def get_label_indices_per_class (labels : List ℤ) : List (List ℕ) × List ℤ :=
  let uniques := List.insertionSort (fun x y => x ≤ y) labels.dedup
  (uniques.map (fun c => (labels.enum.filter (fun p => decide (p.2 = c))).map (fun p => p.1)),
   uniques)

/-- The body of the `list`-registered implementation of `_get_set_indices`
(`preprocessing.py`, lines 141-152), as it would execute if it were
invoked with the third positional argument `_` that its signature
requires.  When `len(size) == 1` the code rebinds `size = int(size[0])`
and then evaluates `zip(size, range(len(unique_labels)))`, which raises
`TypeError` because an `int` is not iterable; otherwise class `i` (for
`i < len(size)`) keeps only the first `size[i]` of its indices, classes
beyond `len(size)` keep all of theirs, and the per-class lists are
concatenated in class order.  (`[:int(n_samples)]` with a non-negative
count is `List.take`; negative counts never occur in the claims.) -/
def list_register (size : List ℤ) (labels : List ℤ) : Except PyError (List ℕ) :=
  let gi := get_label_indices_per_class labels
  let label_indices := gi.1
  if size.length = 1 then
    .error (.typeError ("int object is not iterable"))
  else
    let truncated := label_indices.enum.map (fun p =>
      match size.get? p.1 with
      | some ns => p.2.take ns.toNat
      | none => p.2)
    .ok truncated.flatten

/-- Exact rational multiplication, written out through `Rat.normalize` so
that it is kernel-reducible (the library marks `Rat.mul` irreducible,
which blocks `decide` on concrete inputs); `rat_mul_eq_mul` shows it is
ordinary multiplication on `ℚ`. -/
def rat_mul (a b : ℚ) : ℚ :=
  Rat.normalize (a.num * b.num) (a.den * b.den) (Nat.mul_ne_zero a.den_nz b.den_nz)

theorem rat_mul_eq_mul (a b : ℚ) : rat_mul a b = a * b :=
  (Rat.mul_def a b).symm

/-- `_get_set_indices(size, labels)` as dispatched by
`functools.singledispatch` (`preprocessing.py`, lines 98-152) on a
two-argument call, which is how `train_val_test_split` calls it.
* `float` register (lines 123-129): `AssertionError` unless
  `0 < size <= 1`, else `np.arange(int(len(labels) * size))` (Python
  `int()` truncates toward zero, which on this guarded non-negative
  product is the floor).
* `int` register (lines 132-138): `AssertionError` if `size < 1`, else
  `np.arange(size)`.
* `list` register (lines 141-152): the registered implementation declares
  three positional parameters `(size, labels, _)`, but the dispatcher
  forwards only the two supplied arguments, so the call itself raises
  `TypeError` before the body (embedded above as `list_register`) can
  run. -/
def get_set_indices (size : SizeSpec) (labels : List ℤ) : Except PyError (List ℕ) :=
  match size with
  | .float s =>
    if 0 < s ∧ s ≤ 1 then
      .ok (List.range (rat_mul (labels.length : ℚ) s).floor.toNat)
    else
      .error (.assertionError (""))
  | .int n =>
    if n < 1 then
      .error (.assertionError (""))
    else
      .ok (List.range n.toNat)
  | .list _ =>
    .error (.typeError ("missing 1 required positional argument"))

/-- The index-set computation inside `train_val_test_split`
(`preprocessing.py`, lines 88-93): resolve `train_size` on the full label
vector, resolve `val_size` (a Python `float`, hence the fraction
register) on `labels[train_indices]` and map the local result back
through `train_indices`, take the test indices as
`setdiff1d(arange(len(data)), train_indices)` (`n` is `len(data)`) and
carve the validation indices out of the train indices.  Returns the
final (train, val, test) index lists used to slice the arrays. -/
def tvt_indices (n : ℕ) (train_size : SizeSpec) (val_size : ℚ) (labels : List ℤ) :
    Except PyError (List ℕ × List ℕ × List ℕ) :=
  match get_set_indices train_size labels with
  | .error e => .error e
  | .ok train_indices =>
    match np_index labels train_indices with
    | .error e => .error e
    | .ok labels_train =>
      match get_set_indices (.float val_size) labels_train with
      | .error e => .error e
      | .ok val_local =>
        match np_index train_indices val_local with
        | .error e => .error e
        | .ok val_indices =>
          .ok (setdiff1d train_indices val_indices, val_indices,
               setdiff1d (List.range n) train_indices)

/-- Slice `data[idx]` and `labels[idx]`, in that evaluation order. -/
def slice2 {α : Type} [Inhabited α] (data : List α) (labels : List ℤ) (idx : List ℕ) :
    Except PyError (List α × List ℤ) :=
  match np_index data idx with
  | .error e => .error e
  | .ok xs =>
    match np_index labels idx with
    | .error e => .error e
    | .ok ys => .ok (xs, ys)

/-- `train_val_test_split(data, labels, train_size, val_size, seed)`
(`preprocessing.py`, lines 62-95).  Modelled from the spec for the
missing collaborator `shuffle_arrays_together` (`src.utils.utils`, not in
the provided sources): it applies one seed-derived permutation jointly to
`data` and `labels` in place, so the function below receives the already
jointly-shuffled arrays and the theorems quantify over them.  After the
index computation the six returned arrays are the data/label slices by
the train, validation and test index sets, in source order. -/
def train_val_test_split {α : Type} [Inhabited α] (data : List α) (labels : List ℤ)
    (train_size : SizeSpec) (val_size : ℚ) :
    Except PyError ((List α × List ℤ) × (List α × List ℤ) × (List α × List ℤ)) :=
  match tvt_indices data.length train_size val_size labels with
  | .error e => .error e
  | .ok (tr, va, te) =>
    match slice2 data labels tr with
    | .error e => .error e
    | .ok train_xy =>
      match slice2 data labels va with
      | .error e => .error e
      | .ok val_xy =>
        match slice2 data labels te with
        | .error e => .error e
        | .ok test_xy => .ok (train_xy, val_xy, test_xy)

/-- A data cell that is either an ordinary number or NaN (`Option.none`).
`np.isnan` is `Option.isNone`. -/
abbrev PyVal : Type := Option ℚ

/-- Numpy boolean-mask indexing `xs[mask]`: keep the elements whose mask
entry is `true` (the masks in this code always have the array's length). -/
def bool_mask {α : Type} (xs : List α) (mask : List Bool) : List α :=
  (xs.zip mask).filterMap (fun p => if p.2 then some p.1 else none)

/-- `remove_nan_samples(data, labels)` (`preprocessing.py`, lines 47-60):
`nan_samples_indexes = np.isnan(data).any(axis=all_but_samples_axes)` marks a
sample when ANY element of its non-sample axes is NaN (a sample's
non-sample axes are flattened here into one list of cells), then both
`labels` and `data` are filtered by the negated mask. -/
def remove_nan_samples (data : List (List PyVal)) (labels : List ℤ) :
    List (List PyVal) × List ℤ :=
  let nan_samples_indexes := data.map (fun s => s.any (fun v => v.isNone))
  (bool_mask data (nan_samples_indexes.map (fun b => !b)),
   bool_mask labels (nan_samples_indexes.map (fun b => !b)))

/-- First-occurrence deduplication: the element order a Python `dict`
comprehension retains, and the element count of a Python `set`. -/
def dedup_first {α : Type} [DecidableEq α] : List α → List α
  | [] => []
  | a :: l => a :: (dedup_first l).filter (fun b => decide (b ≠ a))

/-- Modelled from the spec: `io.load_metrics` (`src.utils.io`, not in the
provided sources) returns, for the experiment runs, the parallel lists
`metric_keys` (one CSV header row of metric names per run) and
`metric_values` (one row of numbers per run). -/
structure AllMetrics where
  metric_keys : List (List String)
  metric_values : List (List ℚ)
deriving DecidableEq

/-- The summary written by the reporter: the `Stats` label column and, per
metric name, its four statistics. -/
structure StatReport where
  stats : List String
  entries : List (String × List ℚ)
deriving DecidableEq

/-- `np.mean`: on `[]` numpy warns and yields NaN without raising; the ℚ
embedding yields `0/0 = 0` there, and no claim touches that case. -/
def np_mean (xs : List ℚ) : ℚ :=
  xs.sum / xs.length

/-- Population variance, `np.std` squared.  `np.std` itself is the square
root of this, which leaves `ℚ`; no claim depends on the numeric value of
the std entry, so the report stores the variance in that slot. -/
def np_var (xs : List ℚ) : ℚ :=
  (xs.map (fun x => (x - np_mean xs) ^ 2)).sum / xs.length

/-- The `[np.mean(v), np.std(v), np.min(v), np.max(v)]` row of
`collect_artifacts_report` (`artifacts_reporter.py`, lines 47-51):
`np.min`/`np.max` raise `ValueError` on an empty array (`np.mean` and
`np.std` only warn first, returning NaN). -/
def stats_row (xs : List ℚ) : Except PyError (List ℚ) :=
  match xs with
  | [] => .error (.valueError ("zero-size array to reduction operation"))
  | x :: t => .ok [np_mean xs, np_var xs, t.foldl min x, t.foldl max x]

/-- Run `f` over a list left to right, stopping at the first error — the
evaluation order of the `for key in artifacts.keys()` loop. -/
def except_results {α β : Type} (f : α → Except PyError β) :
    List α → Except PyError (List β)
  | [] => .ok []
  | a :: l =>
    match f a with
    | .error e => .error e
    | .ok b =>
      match except_results f l with
      | .error e => .error e
      | .ok bs => .ok (b :: bs)

/-- `collect_artifacts_report` (`artifacts_reporter.py`, lines 20-56)
after `io.load_metrics`: build the set `{tuple(mk) for mk in
all_metrics['metric_keys']}` (its size is the number of DISTINCT ordered
key tuples), raise `AssertionError` unless that size is 1, then build the
`artifacts` dict (its keys are the first run's key tuple, deduplicated in
first-occurrence order; each key at dict position `i` collects, via
`zip(artifacts.keys(), metric_values)`, the `i`-th value of every run
that has one) and the per-metric statistics rows.  Modelled from the
spec for the missing `io.save_metrics`: returning `.ok report` stands for
the report being written (to `dest_path` or to `report.csv` inside it),
and `.error` means the failure happened before any write — in the source
the `raise` at line 38 precedes every `io.save_metrics` call. -/
def collect_artifacts_report (am : AllMetrics) : Except PyError StatReport :=
  let metric_keys := dedup_first am.metric_keys
  if metric_keys.length ≠ 1 then
    .error (.assertionError ("The metric names should be consistent across all experiment runs."))
  else
    let keys := dedup_first (metric_keys.headD [])
    let artifacts : List (String × List ℚ) :=
      keys.enum.map (fun p => (p.2, am.metric_values.filterMap (fun vs => vs.get? p.1)))
    match except_results (fun p => (stats_row p.2).map (fun row => (p.1, row))) artifacts with
    | .error e => .error e
    | .ok entries => .ok ⟨["mean", "std", "min", "max"], entries⟩

instance {ε α : Type} [DecidableEq ε] [DecidableEq α] : DecidableEq (Except ε α) :=
  fun a b =>
    match a, b with
    | .ok x, .ok y =>
      if h : x = y then isTrue (by rw [h]) else isFalse (by intro hc; cases hc; exact h rfl)
    | .error x, .error y =>
      if h : x = y then isTrue (by rw [h]) else isFalse (by intro hc; cases hc; exact h rfl)
    | .ok _, .error _ => isFalse (by intro hc; cases hc)
    | .error _, .ok _ => isFalse (by intro hc; cases hc)

theorem mem_setdiff1d {a b : List ℕ} {x : ℕ} :
    x ∈ setdiff1d a b ↔ x ∈ a ∧ x ∉ b := by
  simp [setdiff1d, (List.perm_insertionSort _ _).mem_iff, List.mem_dedup, List.mem_filter]

theorem nodup_setdiff1d (a b : List ℕ) : (setdiff1d a b).Nodup := by
  exact (List.perm_insertionSort _ _).nodup_iff.2 (List.nodup_dedup _)

theorem length_filter_range_not_mem {a b : ℕ} (h : b ≤ a) :
    ((List.range a).filter (fun x => decide (x ∉ List.range b))).length = a - b := by
  induction a with
  | zero => simp
  | succ a ih =>
    rcases Nat.lt_or_ge a b with hab | hab
    · have hb : b = a + 1 := Nat.le_antisymm h hab
      have : (List.range (a + 1)).filter (fun x => decide (x ∉ List.range b)) = [] := by
        rw [List.filter_eq_nil_iff]
        intro x hx
        simp only [List.mem_range] at hx
        simp [List.mem_range, hb, hx]
      rw [this, hb]
      simp
    · rw [List.range_succ a, List.filter_append, List.length_append, ih hab]
      have hnotmem : a ∉ List.range b := by
        simp only [List.mem_range]
        omega
      have hsing : List.filter (fun x => decide (x ∉ List.range b)) [a] = [a] := by
        simp [hnotmem]
        omega
      rw [hsing]
      simp only [List.length_singleton]
      omega

theorem setdiff1d_range_length {a b : ℕ} (h : b ≤ a) :
    (setdiff1d (List.range a) (List.range b)).length = a - b := by
  rw [setdiff1d, List.length_insertionSort,
    List.dedup_eq_self.2 ((List.nodup_range a).filter _), length_filter_range_not_mem h]

theorem np_index_ok_iff {α : Type} [Inhabited α] {xs : List α} {idx : List ℕ} {ys : List α} :
    np_index xs idx = .ok ys ↔
      (∀ i ∈ idx, i < xs.length) ∧ ys = idx.map (fun i => xs.getD i default) := by
  unfold np_index
  split
  · rename_i hall
    simp only [List.all_eq_true, decide_eq_true_eq] at hall
    constructor
    · intro h
      exact ⟨hall, (Except.ok.inj h).symm⟩
    · intro h
      rw [h.2]
  · rename_i hall
    simp only [List.all_eq_true, decide_eq_true_eq] at hall
    constructor
    · intro h
      exact Except.noConfusion h
    · intro h
      exact absurd h.1 hall

theorem np_index_range_range {k m : ℕ} (h : m ≤ k) :
    np_index (List.range k) (List.range m) = .ok (List.range m) := by
  rw [np_index_ok_iff]
  constructor
  · intro i hi
    rw [List.length_range]
    exact lt_of_lt_of_le (List.mem_range.1 hi) h
  · have : ∀ i ∈ List.range m, (List.range k).getD i default = i := by
      intro i hi
      have hik : i < k := lt_of_lt_of_le (List.mem_range.1 hi) h
      rw [List.getD_eq_getElem?_getD, List.getElem?_range hik]
      rfl
    rw [List.map_congr_left this, List.map_id']

theorem get_set_indices_ok_range {ts : SizeSpec} {labels : List ℤ} {l : List ℕ}
    (h : get_set_indices ts labels = .ok l) : ∃ k, l = List.range k := by
  cases ts with
  | float s =>
    simp only [get_set_indices] at h
    by_cases hs : 0 < s ∧ s ≤ 1
    · rw [if_pos hs] at h
      exact ⟨_, (Except.ok.inj h).symm⟩
    · rw [if_neg hs] at h
      exact Except.noConfusion h
  | int n =>
    simp only [get_set_indices] at h
    by_cases hn : n < 1
    · rw [if_pos hn] at h
      exact Except.noConfusion h
    · rw [if_neg hn] at h
      exact ⟨_, (Except.ok.inj h).symm⟩
  | list l => exact Except.noConfusion h

theorem tvt_indices_ok_inv {n : ℕ} {ts : SizeSpec} {v : ℚ} {labels : List ℤ}
    {tr va te : List ℕ} (h : tvt_indices n ts v labels = .ok (tr, va, te)) :
    ∃ k m, k ≤ labels.length ∧ m ≤ k ∧
      get_set_indices ts labels = .ok (List.range k) ∧
      va = List.range m ∧
      tr = setdiff1d (List.range k) (List.range m) ∧
      te = setdiff1d (List.range n) (List.range k) := by
  unfold tvt_indices at h
  cases hg : get_set_indices ts labels with
  | error e =>
    rw [hg] at h
    exact Except.noConfusion h
  | ok train0 =>
    obtain ⟨k, rfl⟩ := get_set_indices_ok_range hg
    simp only [hg] at h
    cases hl : np_index labels (List.range k) with
    | error e =>
      rw [hl] at h
      exact Except.noConfusion h
    | ok labels_train =>
      simp only [hl] at h
      have hk : k ≤ labels.length := by
        by_contra hlt
        have hmem : labels.length ∈ List.range k := List.mem_range.2 (Nat.lt_of_not_le hlt)
        have := (np_index_ok_iff.1 hl).1 _ hmem
        omega
      cases hv : get_set_indices (.float v) labels_train with
      | error e =>
        rw [hv] at h
        exact Except.noConfusion h
      | ok val_local =>
        obtain ⟨m, rfl⟩ := get_set_indices_ok_range hv
        simp only [hv] at h
        cases hnv : np_index (List.range k) (List.range m) with
        | error e =>
          rw [hnv] at h
          exact Except.noConfusion h
        | ok val_indices =>
          simp only [hnv, Except.ok.injEq, Prod.mk.injEq] at h
          obtain ⟨htr, hvaeq, hteeq⟩ := h
          have hm : m ≤ k := by
            by_contra hlt
            have hmem : k ∈ List.range m := List.mem_range.2 (Nat.lt_of_not_le hlt)
            have := (np_index_ok_iff.1 hnv).1 _ hmem
            rw [List.length_range] at this
            omega
          have hva : val_indices = List.range m := by
            have heq := np_index_range_range hm
            rw [hnv] at heq
            exact Except.ok.inj heq
          refine ⟨k, m, hk, hm, rfl, ?_, ?_, ?_⟩
          · rw [← hvaeq, hva]
          · rw [← htr, hva]
          · rw [← hteeq]

/-- Recognize the embedded counterpart of a raised `AssertionError`. -/
def is_assertion_error {α : Type} : Except PyError α → Bool
  | .error (.assertionError _) => true
  | _ => false

theorem np_index_error_of_oob {α : Type} [Inhabited α] {xs : List α} {idx : List ℕ}
    (i : ℕ) (hmem : i ∈ idx) (hge : xs.length ≤ i) :
    np_index xs idx = .error .indexError := by
  unfold np_index
  rw [if_neg]
  intro hall
  simp only [List.all_eq_true, decide_eq_true_eq] at hall
  exact absurd (hall i hmem) (Nat.not_lt.2 hge)

theorem train_val_test_split_propagates {α : Type} [Inhabited α] (data : List α)
    {labels : List ℤ} {size : SizeSpec} {v : ℚ} {e : PyError}
    (h : get_set_indices size labels = .error e) :
    train_val_test_split data labels size v = .error e := by
  unfold train_val_test_split tvt_indices
  simp only [h]

/-- Claim C3 (amended): whenever the split succeeds (which is the case for
every valid fraction- or integer-mode `train_size` and fraction
`val_size`), the three index sets used by `train_val_test_split` to slice
the returned arrays are pairwise disjoint and the sum of their sizes is
exactly `N` — not merely at most `N`, and regardless of whether the
resolved train indices cover all of `[0, N)`. -/
theorem c3_split_sets_disjoint_sum_eq {n : ℕ} {ts : SizeSpec} {v : ℚ}
    {labels : List ℤ} {tr va te : List ℕ} (hn : n = labels.length)
    (h : tvt_indices n ts v labels = .ok (tr, va, te)) :
    tr.Disjoint va ∧ tr.Disjoint te ∧ va.Disjoint te ∧
      tr.length + va.length + te.length = n := by
  obtain ⟨k, m, hk, hm, _, hva, htr, hte⟩ := tvt_indices_ok_inv h
  subst hva htr hte hn
  refine ⟨?_, ?_, ?_, ?_⟩
  · intro x hxtr hxva
    exact (mem_setdiff1d.1 hxtr).2 hxva
  · intro x hxtr hxte
    exact (mem_setdiff1d.1 hxte).2 (mem_setdiff1d.1 hxtr).1
  · intro x hxva hxte
    have hxk : x ∈ List.range k :=
      List.mem_range.2 (lt_of_lt_of_le (List.mem_range.1 hxva) hm)
    exact (mem_setdiff1d.1 hxte).2 hxk
  · rw [setdiff1d_range_length hm, setdiff1d_range_length hk, List.length_range]
    omega

/-- Claim C3 witness instance: a concrete successful split. -/
theorem c3_split_sets_witness :
    tvt_indices 4 (.float (mkRat 1 2)) (mkRat 1 2) [0, 0, 1, 1] = .ok ([1], [0], [2, 3]) ∧
    (([1] : List ℕ).Disjoint [0] ∧ ([1] : List ℕ).Disjoint [2, 3] ∧
      ([0] : List ℕ).Disjoint [2, 3] ∧
      ([1] : List ℕ).length + ([0] : List ℕ).length + ([2, 3] : List ℕ).length = 4) := by
  have h : tvt_indices 4 (.float (mkRat 1 2)) (mkRat 1 2) [0, 0, 1, 1] =
      .ok ([1], [0], [2, 3]) := by decide
  exact ⟨h, c3_split_sets_disjoint_sum_eq (by decide) h⟩

/-- Claim C4: whenever `train_val_test_split`'s index computation
succeeds, the validation indices are exactly the result of applying size
resolution in fraction mode to `labels[train_indices]` and mapping the
local result back through `train_indices`, and the final train index set
is the originally resolved train set minus the validation set (val is
carved out of train, never additive). -/
theorem c4_val_carved_out_of_train {n : ℕ} {ts : SizeSpec} {v : ℚ}
    {labels : List ℤ} {tr va te : List ℕ}
    (h : tvt_indices n ts v labels = .ok (tr, va, te)) :
    ∃ train0 labels_train val_local,
      get_set_indices ts labels = .ok train0 ∧
      np_index labels train0 = .ok labels_train ∧
      get_set_indices (.float v) labels_train = .ok val_local ∧
      np_index train0 val_local = .ok va ∧
      tr = setdiff1d train0 va ∧
      (∀ x, x ∈ tr ↔ x ∈ train0 ∧ x ∉ va) := by
  unfold tvt_indices at h
  cases hg : get_set_indices ts labels with
  | error e =>
    rw [hg] at h
    exact Except.noConfusion h
  | ok train0 =>
    simp only [hg] at h
    cases hl : np_index labels train0 with
    | error e =>
      rw [hl] at h
      exact Except.noConfusion h
    | ok labels_train =>
      simp only [hl] at h
      cases hv : get_set_indices (.float v) labels_train with
      | error e =>
        rw [hv] at h
        exact Except.noConfusion h
      | ok val_local =>
        simp only [hv] at h
        cases hnv : np_index train0 val_local with
        | error e =>
          rw [hnv] at h
          exact Except.noConfusion h
        | ok val_indices =>
          simp only [hnv, Except.ok.injEq, Prod.mk.injEq] at h
          obtain ⟨htr, hvaeq, _⟩ := h
          subst hvaeq htr
          refine ⟨train0, labels_train, val_local, rfl, hl, hv, hnv, rfl, ?_⟩
          intro x
          exact mem_setdiff1d

/-- Claim C4 witness instance. -/
theorem c4_val_carved_witness :
    tvt_indices 5 (.float (mkRat 3 5)) (mkRat 1 3) [0, 1, 0, 1, 0] =
      .ok ([1, 2], [0], [3, 4]) ∧
    ∃ train0 labels_train val_local,
      get_set_indices (.float (mkRat 3 5)) [0, 1, 0, 1, 0] = .ok train0 ∧
      np_index ([0, 1, 0, 1, 0] : List ℤ) train0 = .ok labels_train ∧
      get_set_indices (.float (mkRat 1 3)) labels_train = .ok val_local ∧
      np_index train0 val_local = .ok [0] ∧
      [1, 2] = setdiff1d train0 [0] ∧
      (∀ x, x ∈ ([1, 2] : List ℕ) ↔ x ∈ train0 ∧ x ∉ ([0] : List ℕ)) := by
  have h : tvt_indices 5 (.float (mkRat 3 5)) (mkRat 1 3) [0, 1, 0, 1, 0] =
      .ok ([1, 2], [0], [3, 4]) := by decide
  exact ⟨h, c4_val_carved_out_of_train h⟩

/-- Claim C6: for a fraction size `0 < s ≤ 1`, resolution returns exactly
the first `⌊N * s⌋` positions of the label vector in positional order
(`np.arange` of that count, i.e. the prefix of `[0, N)`), and their number
is exactly `⌊N * s⌋`. -/
theorem c6_fraction_takes_floor_prefix (labels : List ℤ) (s : ℚ)
    (h0 : 0 < s) (h1 : s ≤ 1) :
    get_set_indices (.float s) labels =
      .ok ((List.range labels.length).take (Int.toNat ⌊(labels.length : ℚ) * s⌋)) ∧
    ((List.range labels.length).take (Int.toNat ⌊(labels.length : ℚ) * s⌋)).length =
      Int.toNat ⌊(labels.length : ℚ) * s⌋ := by
  have hfl : (rat_mul (labels.length : ℚ) s).floor = ⌊(labels.length : ℚ) * s⌋ := by
    rw [rat_mul_eq_mul]
    exact rfl
  have hb : Int.toNat ⌊(labels.length : ℚ) * s⌋ ≤ labels.length := by
    rw [Int.toNat_le]
    calc ⌊(labels.length : ℚ) * s⌋ ≤ ⌊(labels.length : ℚ)⌋ :=
          Int.floor_le_floor (mul_le_of_le_one_right (by positivity) h1)
      _ = labels.length := Int.floor_natCast _
  constructor
  · simp only [get_set_indices, if_pos (And.intro h0 h1), hfl]
    rw [List.take_range, Nat.min_eq_left hb]
  · rw [List.take_range, Nat.min_eq_left hb, List.length_range]

/-- Claim C6 witness instance: `size = 0.8` on `N = 100` yields exactly
the 80 indices `0 .. 79`. -/
theorem c6_fraction_witness :
    get_set_indices (.float (mkRat 4 5)) (List.replicate 100 0) =
      .ok ((List.range 100).take (Int.toNat ⌊(100 : ℚ) * mkRat 4 5⌋)) ∧
    get_set_indices (.float (mkRat 4 5)) (List.replicate 100 0) = .ok (List.range 80) := by
  have h := c6_fraction_takes_floor_prefix (List.replicate 100 0) (mkRat 4 5)
    (by decide) (by decide)
  refine ⟨h.1, ?_⟩
  rw [h.1]
  have : get_set_indices (.float (mkRat 4 5)) (List.replicate 100 0) = .ok (List.range 80) := by
    decide
  rw [h.1] at this
  exact this

/-- Claim C7: size resolution raises `AssertionError` exactly when a
float size lies outside `(0, 1]` or an int size is below `1` (a list size
raises `TypeError`, never `AssertionError`), and such an assertion
failure propagates unchanged to the caller of `train_val_test_split`. -/
theorem c7_assertion_iff_size_out_of_range (size : SizeSpec) (labels : List ℤ)
    (v : ℚ) (data : List ℚ) :
    (is_assertion_error (get_set_indices size labels) = true ↔
      (∃ s, size = .float s ∧ ¬(0 < s ∧ s ≤ 1)) ∨ (∃ m, size = .int m ∧ m < 1)) ∧
    (is_assertion_error (get_set_indices size labels) = true →
      is_assertion_error (train_val_test_split data labels size v) = true) := by
  constructor
  · cases size with
    | float s =>
      simp only [get_set_indices]
      by_cases hs : 0 < s ∧ s ≤ 1
      · rw [if_pos hs]
        constructor
        · intro hfalse
          exact absurd hfalse (by simp [is_assertion_error])
        · rintro (⟨s', heq, hns⟩ | ⟨m', heq, _⟩)
          · cases heq
            exact absurd hs hns
          · exact SizeSpec.noConfusion heq
      · rw [if_neg hs]
        exact ⟨fun _ => Or.inl ⟨s, rfl, hs⟩, fun _ => rfl⟩
    | int m =>
      simp only [get_set_indices]
      by_cases hm : m < 1
      · rw [if_pos hm]
        exact ⟨fun _ => Or.inr ⟨m, rfl, hm⟩, fun _ => rfl⟩
      · rw [if_neg hm]
        constructor
        · intro hfalse
          exact absurd hfalse (by simp [is_assertion_error])
        · rintro (⟨s', heq, _⟩ | ⟨m', heq, hm'⟩)
          · exact SizeSpec.noConfusion heq
          · cases heq
            exact absurd hm' hm
    | list l =>
      constructor
      · intro hfalse
        exact absurd hfalse (by simp [get_set_indices, is_assertion_error])
      · rintro (⟨s', heq, _⟩ | ⟨m', heq, _⟩) <;> exact SizeSpec.noConfusion heq
  · intro hassert
    cases hval : get_set_indices size labels with
    | error pe =>
      cases pe with
      | assertionError msg =>
        rw [train_val_test_split_propagates data hval]
        rfl
      | typeError msg => rw [hval] at hassert; exact absurd hassert (by simp [is_assertion_error])
      | indexError => rw [hval] at hassert; exact absurd hassert (by simp [is_assertion_error])
      | valueError msg => rw [hval] at hassert; exact absurd hassert (by simp [is_assertion_error])
      | notImplementedError => rw [hval] at hassert; exact absurd hassert (by simp [is_assertion_error])
    | ok l => rw [hval] at hassert; exact absurd hassert (by simp [is_assertion_error])

/-- Claim C7 witness instance: `size = 2.0` is outside `(0, 1]`, so both
the resolver and the whole split surface the assertion failure. -/
theorem c7_assertion_witness :
    is_assertion_error (get_set_indices (.float (mkRat 2 1)) [0]) = true ∧
    is_assertion_error
      (train_val_test_split ([0] : List ℚ) [0] (.float (mkRat 2 1)) (mkRat 1 2)) = true := by
  have h := c7_assertion_iff_size_out_of_range (.float (mkRat 2 1)) [0] (mkRat 1 2) [0]
  have h1 : is_assertion_error (get_set_indices (.float (mkRat 2 1)) [0]) = true :=
    h.1.mpr (Or.inl ⟨mkRat 2 1, rfl, by decide⟩)
  exact ⟨h1, h.2 h1⟩

/-- Claim C10: the integer register performs no upper-bound check: for any
int size `sz ≥ 1` it returns `np.arange(sz)` regardless of the label
count, and whenever `sz` exceeds the number of samples the returned set
contains an index outside `[0, N)` and the subsequent fancy indexing
inside `train_val_test_split` raises `IndexError`.  The `[0, N)` index
invariant thus needs the unstated precondition `sz ≤ N`. -/
theorem c10_int_register_no_upper_bound (sz : ℤ) (labels : List ℤ) (v : ℚ)
    (data : List ℚ) (h1 : 1 ≤ sz) :
    get_set_indices (.int sz) labels = .ok (List.range sz.toNat) ∧
    ((labels.length : ℤ) < sz →
      (∃ i ∈ List.range sz.toNat, labels.length ≤ i) ∧
      train_val_test_split data labels (.int sz) v = .error .indexError) := by
  have hg : get_set_indices (.int sz) labels = .ok (List.range sz.toNat) := by
    simp only [get_set_indices]
    rw [if_neg (not_lt.2 h1)]
  refine ⟨hg, fun hlt => ?_⟩
  have hmem : labels.length ∈ List.range sz.toNat :=
    List.mem_range.2 (Int.lt_toNat.2 hlt)
  refine ⟨⟨labels.length, hmem, le_refl _⟩, ?_⟩
  have hnp : np_index labels (List.range sz.toNat) = .error .indexError :=
    np_index_error_of_oob labels.length hmem (le_refl _)
  unfold train_val_test_split tvt_indices
  simp only [hg, hnp]

/-- Claim C10 witness instance: `sz = 5` against 3 samples. -/
theorem c10_int_register_witness :
    get_set_indices (.int 5) [0, 0, 0] = .ok (List.range (5 : ℤ).toNat) ∧
    ((∃ i ∈ List.range (5 : ℤ).toNat, ([0, 0, 0] : List ℤ).length ≤ i) ∧
      train_val_test_split ([1, 2, 3] : List ℚ) [0, 0, 0] (.int 5) (mkRat 1 2) =
        .error .indexError) := by
  have h := c10_int_register_no_upper_bound 5 [0, 0, 0] (mkRat 1 2) [1, 2, 3] (by decide)
  exact ⟨h.1, h.2 (by decide)⟩

theorem bool_mask_cons {α : Type} (x : α) (xs : List α) (b : Bool) (mask : List Bool) :
    bool_mask (x :: xs) (b :: mask) =
      if b then x :: bool_mask xs mask else bool_mask xs mask := by
  cases b <;> simp [bool_mask]

theorem bool_mask_self_map {α : Type} (g : α → Bool) (xs : List α) :
    bool_mask xs (xs.map g) = xs.filter g := by
  induction xs with
  | nil => rfl
  | cons x t ih =>
    rw [List.map_cons, bool_mask_cons, List.filter_cons]
    cases g x <;> simp [ih]

theorem bool_mask_zip_filter {α β : Type} (g : α → Bool) :
    ∀ (data : List α) (labels : List β), labels.length = data.length →
      (bool_mask data (data.map g)).zip (bool_mask labels (data.map g)) =
        (data.zip labels).filter (fun p => g p.1) := by
  intro data
  induction data with
  | nil =>
    intro labels h
    cases labels with
    | nil => rfl
    | cons y ys => simp at h
  | cons x t ih =>
    intro labels h
    cases labels with
    | nil => simp at h
    | cons y ys =>
      have hlen : ys.length = t.length := by
        simp only [List.length_cons] at h
        omega
      rw [List.map_cons, bool_mask_cons, bool_mask_cons, List.zip_cons_cons,
        List.filter_cons]
      cases g x <;> simp [ih ys hlen]

theorem length_filter_not_add {α : Type} (p : α → Bool) (l : List α) :
    (l.filter (fun x => !(p x))).length + (l.filter p).length = l.length := by
  induction l with
  | nil => rfl
  | cons x t ih =>
    rw [List.filter_cons, List.filter_cons]
    cases p x <;> simp <;> omega

/-- Claim C9: `remove_nan_samples` drops a sample exactly when some cell of
its non-sample axes is NaN: no retained sample contains a NaN cell, the
retained count plus the dropped count is `N`, and the retained samples
keep their relative order and their pairing with the labels (the zipped
retained pairs are exactly the NaN-free pairs of the input, in order). -/
theorem c9_nan_filter_exact (data : List (List PyVal)) (labels : List ℤ)
    (hlen : labels.length = data.length) :
    (∀ s ∈ (remove_nan_samples data labels).1, ∀ v ∈ s, v ≠ none) ∧
    (remove_nan_samples data labels).1.length +
      (data.filter (fun s => s.any (fun v => v.isNone))).length = data.length ∧
    (remove_nan_samples data labels).1.zip (remove_nan_samples data labels).2 =
      (data.zip labels).filter (fun p => !(p.1.any (fun v => v.isNone))) := by
  have hmask : ((data.map (fun s => s.any (fun v => v.isNone))).map (fun b => !b)) =
      data.map (fun s => !(s.any (fun v => v.isNone))) := by
    rw [List.map_map]
    rfl
  have h1 : (remove_nan_samples data labels).1 =
      data.filter (fun s => !(s.any (fun v => v.isNone))) := by
    simp only [remove_nan_samples]
    rw [hmask]
    exact bool_mask_self_map _ data
  refine ⟨?_, ?_, ?_⟩
  · intro s hs v hv
    rw [h1] at hs
    have hkeep := (List.mem_filter.1 hs).2
    simp only [Bool.not_eq_true'] at hkeep
    have hall := List.any_eq_false.1 hkeep v hv
    intro hnone
    rw [hnone] at hall
    simp at hall
  · rw [h1]
    exact length_filter_not_add _ data
  · simp only [remove_nan_samples]
    rw [hmask]
    exact bool_mask_zip_filter _ data labels hlen

/-- Claim C9 witness instance: one NaN-bearing and one clean sample. -/
theorem c9_nan_filter_witness :
    (∀ s ∈ (remove_nan_samples [[some 1, none], [some 2, some 3]] [7, 8]).1,
      ∀ v ∈ s, v ≠ none) ∧
    (remove_nan_samples [[some 1, none], [some 2, some 3]] [7, 8]).1.length +
      (([[some 1, none], [some 2, some 3]] : List (List PyVal)).filter
        (fun s => s.any (fun v => v.isNone))).length = 2 ∧
    (remove_nan_samples [[some 1, none], [some 2, some 3]] [7, 8]).1.zip
        (remove_nan_samples [[some 1, none], [some 2, some 3]] [7, 8]).2 =
      (([[some 1, none], [some 2, some 3]] : List (List PyVal)).zip ([7, 8] : List ℤ)).filter
        (fun p => !(p.1.any (fun v => v.isNone))) :=
  c9_nan_filter_exact [[some 1, none], [some 2, some 3]] [7, 8] (by decide)

theorem mem_dedup_first {α : Type} [DecidableEq α] {l : List α} {x : α} :
    x ∈ dedup_first l ↔ x ∈ l := by
  induction l with
  | nil => simp [dedup_first]
  | cons a t ih =>
    simp only [dedup_first, List.mem_cons, List.mem_filter, decide_eq_true_eq]
    constructor
    · rintro (rfl | ⟨hx, _⟩)
      · exact Or.inl rfl
      · exact Or.inr (ih.1 hx)
    · rintro (rfl | hx)
      · exact Or.inl rfl
      · by_cases hxa : x = a
        · exact Or.inl hxa
        · exact Or.inr ⟨ih.2 hx, hxa⟩

theorem dedup_first_length_le {α : Type} [DecidableEq α] (l : List α) :
    (dedup_first l).length ≤ l.length := by
  induction l with
  | nil => simp [dedup_first]
  | cons a t ih =>
    simp only [dedup_first, List.length_cons]
    have := List.length_filter_le (fun b => decide (b ≠ a)) (dedup_first t)
    omega

theorem dedup_first_replicate {α : Type} [DecidableEq α] {r : ℕ} (k : α) (hr : 0 < r) :
    dedup_first (List.replicate r k) = [k] := by
  induction r with
  | zero => exact absurd hr (lt_irrefl 0)
  | succ r ih =>
    rw [List.replicate_succ]
    cases Nat.eq_zero_or_pos r with
    | inl h0 =>
      subst h0
      rfl
    | inr hpos =>
      simp only [dedup_first, ih hpos]
      simp

theorem except_results_all_ok {α β : Type} (f : α → Except PyError β) (l : List α)
    (h : ∀ a ∈ l, ∃ b, f a = .ok b) : ∃ bs, except_results f l = .ok bs := by
  induction l with
  | nil => exact ⟨[], rfl⟩
  | cons a t ih =>
    obtain ⟨b, hb⟩ := h a (List.mem_cons_self a t)
    obtain ⟨bs, hbs⟩ := ih (fun x hx => h x (List.mem_cons_of_mem a hx))
    exact ⟨b :: bs, by simp only [except_results, hb, hbs]⟩

/-- Claim C8: two runs with different (as ordered tuples) metric key lists
make `collect_artifacts_report` raise the descriptive `AssertionError`,
and the `.error` result means no report value is produced — in the
source, the `raise` precedes every `io.save_metrics` call, so nothing is
written. -/
theorem c8_inconsistent_metric_keys_fail (am : AllMetrics) (k1 k2 : List String)
    (h1 : k1 ∈ am.metric_keys) (h2 : k2 ∈ am.metric_keys) (hne : k1 ≠ k2) :
    collect_artifacts_report am =
      .error (.assertionError
        ("The metric names should be consistent across all experiment runs.")) := by
  unfold collect_artifacts_report
  rw [if_pos]
  intro hlen
  obtain ⟨x, hx⟩ := List.length_eq_one.1 hlen
  have m1 : k1 ∈ dedup_first am.metric_keys := mem_dedup_first.2 h1
  have m2 : k2 ∈ dedup_first am.metric_keys := mem_dedup_first.2 h2
  rw [hx] at m1 m2
  simp only [List.mem_singleton] at m1 m2
  exact hne (m1.trans m2.symm)

/-- Claim C8 witness instance: runs with key sets `{acc, f1}` and `{acc}`. -/
theorem c8_inconsistent_witness :
    (["acc", "f1"] : List String) ≠ ["acc"] ∧
    collect_artifacts_report ⟨[["acc", "f1"], ["acc"]], [[1, 2], [1]]⟩ =
      .error (.assertionError
        ("The metric names should be consistent across all experiment runs.")) :=
  ⟨by decide,
    c8_inconsistent_metric_keys_fail _ ["acc", "f1"] ["acc"] (by decide) (by decide) (by decide)⟩

/-- Claim C5 (amended): the comparison is order-SENSITIVE.  When every run
reports the identical ordered key list (and the per-run value rows line up
with it), no consistency failure is raised and the report is produced;
equal key sets in different orders do raise (see the counterexample). -/
theorem c5_identical_ordered_keys_report_ok (am : AllMetrics) (k : List String) (r : ℕ)
    (hr : 0 < r) (hkeys : am.metric_keys = List.replicate r k)
    (hvlen : am.metric_values.length = r)
    (hvs : ∀ vs ∈ am.metric_values, vs.length = k.length) :
    ∃ rep, collect_artifacts_report am = .ok rep := by
  unfold collect_artifacts_report
  rw [hkeys, dedup_first_replicate k hr]
  rw [if_neg (by simp)]
  have hart : ∀ p ∈ (dedup_first ([k].headD [])).enum.map
      (fun p => (p.2, am.metric_values.filterMap (fun vs => vs.get? p.1))),
      ∃ b, (stats_row p.2).map (fun row => (p.1, row)) = .ok b := by
    intro p hp
    obtain ⟨q, hq, rfl⟩ := List.mem_map.1 hp
    have hi : q.1 < (dedup_first k).length := by
      simpa using List.fst_lt_of_mem_enum hq
    have hik : q.1 < k.length := lt_of_lt_of_le hi (dedup_first_length_le k)
    cases hmv : am.metric_values with
    | nil =>
      rw [hmv] at hvlen
      simp at hvlen
      omega
    | cons v0 rest =>
      have hv0 : v0.length = k.length := hvs v0 (by rw [hmv]; exact List.mem_cons_self _ _)
      cases hg : v0.get? q.1 with
      | none =>
        rw [List.get?_eq_none] at hg
        omega
      | some x =>
        simp only [List.filterMap_cons, hg]
        exact ⟨_, rfl⟩
  obtain ⟨entries, hent⟩ := except_results_all_ok _ _ hart
  simp only [hent]
  exact ⟨_, rfl⟩

/-- Claim C5 witness instance: two runs with the identical ordered key
list `[acc]` produce a report. -/
theorem c5_report_ok_witness :
    (⟨[["acc"], ["acc"]], [[1], [3]]⟩ : AllMetrics).metric_keys = List.replicate 2 ["acc"] ∧
    ∃ rep, collect_artifacts_report ⟨[["acc"], ["acc"]], [[1], [3]]⟩ = .ok rep :=
  ⟨rfl, c5_identical_ordered_keys_report_ok _ ["acc"] 2 (by decide) rfl (by decide) (by decide)⟩

/-- Claim C1 (code bug evidence): with `train_size = [5, 3, 2]` and a label
vector holding three classes (six `0`s, four `1`s, three `2`s),
`train_val_test_split` raises `TypeError` instead of returning the
stratified split: `functools.singledispatch` forwards the two supplied
arguments, but the `list`-registered implementation declares three
positional parameters `(size, labels, _)`.  The second conjunct shows the
body itself (run with the missing third argument supplied) would return
exactly the claimed index set: the first 5 indices of class 0, the first
3 of class 1 and the first 2 of class 2, concatenated in class order. -/
theorem c1_list_mode_call_raises_type_error :
    train_val_test_split (List.replicate 13 (0 : ℚ))
        [0, 0, 0, 0, 0, 0, 1, 1, 1, 1, 2, 2, 2] (.list [5, 3, 2]) (mkRat 1 10) =
      .error (.typeError ("missing 1 required positional argument")) ∧
    list_register [5, 3, 2] [0, 0, 0, 0, 0, 0, 1, 1, 1, 1, 2, 2, 2] =
      .ok [0, 1, 2, 3, 4, 6, 7, 8, 10, 11] := by
  decide

/-- Claim C2 (code bug evidence): a one-element size list `[5]` never
broadcasts.  The dispatched two-argument call raises `TypeError` for the
arity reason of C1, and even the body run with the third argument
supplied rebinds `size = int(size[0])` and then evaluates
`zip(size, range(len(unique_labels)))`, raising `TypeError` because an
`int` is not iterable — so no class ever receives the broadcast count. -/
theorem c2_singleton_list_broadcast_raises :
    get_set_indices (.list [5]) [0, 0, 1, 1, 2, 2] =
      .error (.typeError ("missing 1 required positional argument")) ∧
    list_register [5] [0, 0, 1, 1, 2, 2] =
      .error (.typeError ("int object is not iterable")) := by
  decide

/-- Claim C3 (counterexample): with `N = 5`, `train_size = 0.8` and
`val_size = 0.5`, the split succeeds with train `[2, 3]`, val `[0, 1]`,
test `[4]`: the sizes sum to `5 = N` even though the resolved train
indices `[0, 1, 2, 3]` do NOT cover all of `[0, 5)` — refuting "equality
exactly when the resolved train indices cover all of [0,N)". -/
theorem c3_counterexample_sum_without_cover :
    tvt_indices 5 (.float (mkRat 4 5)) (mkRat 1 2) [0, 0, 0, 0, 0] =
      .ok ([2, 3], [0, 1], [4]) ∧
    get_set_indices (.float (mkRat 4 5)) [0, 0, 0, 0, 0] = .ok [0, 1, 2, 3] ∧
    ([2, 3] : List ℕ).length + ([0, 1] : List ℕ).length + ([4] : List ℕ).length = 5 ∧
    ¬(∀ i ∈ List.range 5, i ∈ ([0, 1, 2, 3] : List ℕ)) := by
  decide

/-- Claim C5 (counterexample): two runs whose metric key lists contain
exactly the same set of names `{acc, f1}` in different orders DO raise
the consistency failure — the code compares ordered tuples, not sets, so
the comparison is order-sensitive, refuting the claim that no failure is
raised for equal key sets. -/
theorem c5_counterexample_equal_sets_still_raise :
    (["acc", "f1"] : List String).toFinset = (["f1", "acc"] : List String).toFinset ∧
    collect_artifacts_report ⟨[["acc", "f1"], ["f1", "acc"]], [[1, 2], [2, 1]]⟩ =
      .error (.assertionError ("The metric names should be consistent across all experiment runs.")) := by
  decide

